import Mathlib

/-!
Verification of the MCP gRPC transport core (shallow embedding).

This file embeds, in Lean 4, the parts of the `mcp` gRPC transport layer
needed to settle the specification claims:

* `mcp/shared/grpc_utils.py` — metadata lookup and the protocol version gate;
* `mcp/client/cache.py` — the single-slot TTL cache entry;
* `mcp/client/grpc_transport_session.py` — the unary retry wrapper,
  `read_resource` error mapping;
* `mcp/shared/convert.py` — content codec, tool output normalization, TTL
  conversion (the latter through an exact model of IEEE-754 binary64
  arithmetic over `ℚ`);
* `mcp/server/grpc.py` / `mcp/server/grpc_session.py` — the CallTool
  streaming queue discipline.

Python `datetime`/`timedelta` instants are modelled as rationals (seconds),
metadata as lists of string pairs, bytes as lists of naturals below 256.
-/

namespace Mcp

/-- Modelled from the spec: `mcp/shared/version.py` is imported by the
sources but absent from them.  Per the spec, the supported versions are a
fixed ordered list `2024-11-05, 2025-03-26, 2025-06-18, 2025-11-25` and the
last one is "latest".  (The joined list also appears verbatim in the
repository tests.) -/
def SUPPORTED_PROTOCOL_VERSIONS : List String :=
  ["2024-11-05", "2025-03-26", "2025-06-18", "2025-11-25"]

/-- Modelled from the spec: the latest supported protocol version (the last
element of `SUPPORTED_PROTOCOL_VERSIONS`). -/
def LATEST_PROTOCOL_VERSION : String := "2025-11-25"

/-- `grpc_utils.MCP_PROTOCOL_VERSION_KEY`. -/
def MCP_PROTOCOL_VERSION_KEY : String := "mcp-protocol-version"

/-- `grpc_utils.MCP_TOOL_NAME_KEY`. -/
def MCP_TOOL_NAME_KEY : String := "mcp-tool-name"

/-- `grpc_utils.MCP_RESOURCE_URI_KEY`. -/
def MCP_RESOURCE_URI_KEY : String := "mcp-resource-uri"

/-- ASCII lower-casing of a character, as Python `str.lower` acts on the
ASCII metadata keys used by this code base. -/
def asciiLowerChar (c : Char) : Char :=
  if 65 ≤ c.toNat ∧ c.toNat ≤ 90 then Char.ofNat (c.toNat + 32) else c

/-- ASCII lower-casing of a string (`k.lower()` for the ASCII keys in play). -/
def asciiLower (s : String) : String := String.mk (s.toList.map asciiLowerChar)

/-- `grpc_utils.get_metadata_value`: first value whose key matches
case-insensitively, `none` otherwise.  Metadata values are modelled as
strings (the source also accepts `bytes` values and UTF-8–decodes them; a
decoded bytes value is the same string in this model). -/
def get_metadata_value (metadata : List (String × String)) (key : String) :
    Option String :=
  (metadata.find? (fun kv => asciiLower kv.1 == asciiLower key)).map (·.2)

/-- gRPC status codes used by the embedded code. -/
inductive StatusCode where
  | OK
  | CANCELLED
  | UNKNOWN
  | INVALID_ARGUMENT
  | DEADLINE_EXCEEDED
  | NOT_FOUND
  | UNIMPLEMENTED
  | INTERNAL
  | UNAVAILABLE
  deriving DecidableEq, Repr

/-! ### `mcp/client/cache.py` — `CacheEntry`

Instants and durations are rationals (seconds); `datetime.datetime.now()`
becomes an explicit `now` argument at every call site that reads the clock.
The pending `asyncio.TimerHandle` is modelled as the scheduled fire time. -/

/-- State of a `CacheEntry`: cached data, expiry instant, whether an
`on_expired` callback was supplied at construction, and the pending expiry
timer (its fire instant), if any. -/
structure CacheEntry (V : Type) where
  data : Option V
  expiry_time : ℚ
  hasOnExpired : Bool
  timer : Option ℚ
  deriving Repr, DecidableEq

/-- `CacheEntry.is_valid` at instant `now`: `datetime.datetime.now() < self._expiry_time`. -/
def CacheEntry.is_valid (st : CacheEntry V) (now : ℚ) : Bool :=
  decide (now < st.expiry_time)

/-- `CacheEntry.get` at instant `now`: the data if valid, otherwise `None`. -/
def CacheEntry.get (st : CacheEntry V) (now : ℚ) : Option V :=
  if st.is_valid now then st.data else none

/-- `CacheEntry.cancel_expiry_task`: drop any pending timer. -/
def CacheEntry.cancel_expiry_task (st : CacheEntry V) : CacheEntry V :=
  { st with timer := none }

/-- `CacheEntry.set` at instant `now`: cancel any pending timer, store the
data, set expiry to `now + ttl`, and schedule the expiry callback at
`now + ttl` when `ttl > 0` and an `on_expired` callback exists. -/
def CacheEntry.set (st : CacheEntry V) (v : V) (ttl : ℚ) (now : ℚ) :
    CacheEntry V :=
  let st := st.cancel_expiry_task
  { st with
    data := some v
    expiry_time := now + ttl
    timer := if 0 < ttl ∧ st.hasOnExpired then some (now + ttl) else none }

/-- `CacheEntry._run_expiry_callback`: clears the data and the timer handle
(the user callback itself is dispatched asynchronously). -/
def CacheEntry.run_expiry_callback (st : CacheEntry V) : CacheEntry V :=
  { st with data := none, timer := none }

/-! ### `mcp/shared/grpc_utils.py` — protocol version gate -/

/-- The observable effect of `context.abort` inside the version gate: the
initial metadata already sent on the context, the status code and the
message. -/
structure AbortInfo where
  initialMetadata : List (String × String)
  code : StatusCode
  message : String
  deriving DecidableEq, Repr

/-- `grpc_utils.get_protocol_version_from_context`: extract the version from
the invocation metadata (`none` models `context.invocation_metadata()`
returning `None`); abort with `UNIMPLEMENTED` when absent or unsupported,
sending the latest supported version as initial metadata first. -/
def get_protocol_version_from_context
    (metadata : Option (List (String × String))) (supported : List String) :
    Except AbortInfo String :=
  let protocol_version_str :=
    match metadata with
    | none => none
    | some md => get_metadata_value md MCP_PROTOCOL_VERSION_KEY
  match protocol_version_str with
  | none =>
      .error ⟨[(MCP_PROTOCOL_VERSION_KEY, LATEST_PROTOCOL_VERSION)],
        .UNIMPLEMENTED,
        "Protocol version not provided. Supported versions are: " ++
          String.intercalate ", " supported⟩
  | some v =>
      if v ∈ supported then .ok v
      else
        .error ⟨[(MCP_PROTOCOL_VERSION_KEY, LATEST_PROTOCOL_VERSION)],
          .UNIMPLEMENTED,
          "Unsupported protocol version: " ++ v ++
            ". Supported versions are: " ++ String.intercalate ", " supported⟩

/-- `grpc_utils.check_protocol_version_from_metadata` applied to a handler
`func`: on success the wrapper sends `[(mcp-protocol-version, v)]` as
initial metadata (the source re-checks membership before sending) and
invokes the handler; on failure the abort from
`get_protocol_version_from_context` propagates. -/
def check_protocol_version_from_metadata {α β : Type} (func : α → β)
    (metadata : Option (List (String × String))) (request : α) :
    Except AbortInfo (List (String × String) × β) :=
  match get_protocol_version_from_context metadata SUPPORTED_PROTOCOL_VERSIONS with
  | .error a => .error a
  | .ok v =>
      if v ∈ SUPPORTED_PROTOCOL_VERSIONS then
        .ok ([(MCP_PROTOCOL_VERSION_KEY, v)], func request)
      else
        .ok ([], func request)

/-! ### Base64 (Python `base64.b64encode` / `base64.b64decode`)

Bytes are naturals below 256.  `b64decode` models CPython's default
(`validate=False`) behaviour on the inputs exercised here: characters
outside the alphabet and `=` are discarded up front, the remaining length
must be a multiple of four, `=` padding is accepted only at the end. -/

/-- The standard base64 alphabet. -/
def base64Alphabet : List Char :=
  "ABCDEFGHIJKLMNOPQRSTUVWXYZabcdefghijklmnopqrstuvwxyz0123456789+/".toList

/-- The alphabet character for a 6-bit value. -/
def b64Char (n : ℕ) : Char := base64Alphabet.getD n (Char.ofNat 65)

/-- The 6-bit value of an alphabet character, `none` for other characters. -/
def b64Index (c : Char) : Option ℕ := base64Alphabet.findIdx? (· == c)

/-- Base64-encode a byte list, three bytes per four characters, `=`-padded. -/
def b64encodeList : List ℕ → List Char
  | [] => []
  | [a] => [b64Char (a / 4), b64Char (a % 4 * 16), '=', '=']
  | [a, b] =>
      [b64Char (a / 4), b64Char (a % 4 * 16 + b / 16), b64Char (b % 16 * 4), '=']
  | a :: b :: c :: rest =>
      b64Char (a / 4) :: b64Char (a % 4 * 16 + b / 16) ::
        b64Char (b % 16 * 4 + c / 64) :: b64Char (c % 64) :: b64encodeList rest

/-- `base64.b64encode(bs).decode("utf-8")`. -/
def b64encode (bs : List ℕ) : String := String.mk (b64encodeList bs)

/-- Decode a filtered character list, four characters per chunk;
`none` models `binascii.Error`. -/
def b64decodeChunks : List Char → Option (List ℕ)
  | [] => some []
  | c1 :: c2 :: c3 :: c4 :: rest =>
      match b64Index c1, b64Index c2 with
      | some s1, some s2 =>
          if c3 = '=' then
            if c4 = '=' ∧ rest = [] then some [s1 * 4 + s2 / 16] else none
          else
            match b64Index c3 with
            | some s3 =>
                if c4 = '=' then
                  if rest = [] then
                    some [s1 * 4 + s2 / 16, s2 % 16 * 16 + s3 / 4]
                  else none
                else
                  match b64Index c4 with
                  | some s4 =>
                      (b64decodeChunks rest).map
                        (fun tl => (s1 * 4 + s2 / 16) :: (s2 % 16 * 16 + s3 / 4) ::
                          (s3 % 4 * 64 + s4) :: tl)
                  | none => none
            | none => none
      | _, _ => none
  | _ => none

/-- `base64.b64decode(s)`: discard foreign characters, then decode;
`none` models a raised `binascii.Error` (e.g. wrong length). -/
def b64decode (s : String) : Option (List ℕ) :=
  b64decodeChunks
    (s.toList.filter (fun c => (b64Index c).isSome || c = '='))

/-! ### Client unary wrapper (`GRPCTransportSession._call_unary_rpc`) -/

/-- A `grpc.RpcError` as observed by the client: status code, the initial
metadata attached to the error, and its rendered details/str form. -/
structure RpcError where
  code : StatusCode
  initialMetadata : List (String × String)
  details : String
  deriving DecidableEq, Repr

/-- `GRPCTransportSession._check_and_update_version`: returns the new
negotiated version when the source method returns `True` (and assigns
`self.negotiated_version`), `none` when it returns `False`. -/
def check_and_update_version (e : RpcError) : Option String :=
  if e.code = .UNIMPLEMENTED then
    match get_metadata_value e.initialMetadata MCP_PROTOCOL_VERSION_KEY with
    | none => none
    | some v => if v ∈ SUPPORTED_PROTOCOL_VERSIONS then some v else none
  else none

/-- The observable outcome of `_call_unary_rpc`: the returned response or
re-raised error, the number of attempts actually made, the metadata sent on
each attempt in order, and the final `self.negotiated_version`. -/
structure UnaryCallResult (β : Type) where
  result : Except RpcError β
  attempts : ℕ
  sentMetadata : List (List (String × String))
  negotiated : String

/-- `GRPCTransportSession._call_unary_rpc`.  The underlying RPC is a
function of the attempt number (network nondeterminism) and of the metadata
sent on that attempt. -/
def call_unary_rpc {β : Type}
    (rpc : ℕ → List (String × String) → Except RpcError β)
    (metadata : List (String × String)) (negotiated : String) :
    UnaryCallResult β :=
  match rpc 1 (metadata ++ [(MCP_PROTOCOL_VERSION_KEY, negotiated)]) with
  | .ok r =>
      ⟨.ok r, 1, [metadata ++ [(MCP_PROTOCOL_VERSION_KEY, negotiated)]],
        negotiated⟩
  | .error e =>
      match check_and_update_version e with
      | some v =>
          match rpc 2 (metadata ++ [(MCP_PROTOCOL_VERSION_KEY, v)]) with
          | .ok r =>
              ⟨.ok r, 2,
                [metadata ++ [(MCP_PROTOCOL_VERSION_KEY, negotiated)],
                 metadata ++ [(MCP_PROTOCOL_VERSION_KEY, v)]], v⟩
          | .error e2 =>
              ⟨.error e2, 2,
                [metadata ++ [(MCP_PROTOCOL_VERSION_KEY, negotiated)],
                 metadata ++ [(MCP_PROTOCOL_VERSION_KEY, v)]], v⟩
      | none =>
          ⟨.error e, 1,
            [metadata ++ [(MCP_PROTOCOL_VERSION_KEY, negotiated)]], negotiated⟩

/-! ### Client error taxonomy and `read_resource` -/

/-- `mcp.types.ErrorData` (code and message; the protocol error surface). -/
structure McpErrorData where
  code : ℤ
  message : String
  deriving DecidableEq, Repr

/-- Modelled from the spec: `mcp.types.INTERNAL_ERROR` (`-32603`). -/
def INTERNAL_ERROR : ℤ := -32603

/-- Modelled from the spec: `mcp.types.PARSE_ERROR` (`-32700`). -/
def PARSE_ERROR : ℤ := -32700

/-- Modelled from the spec: `mcp.types.REQUEST_TIMEOUT`; `mcp.types` is not
in the sources and the spec names the code symbolically, so the numeral is
a placeholder distinct from the other codes. -/
def REQUEST_TIMEOUT : ℤ := -32001

/-- Modelled from the spec: `mcp.types.REQUEST_CANCELLED`; same remark as
for `REQUEST_TIMEOUT`. -/
def REQUEST_CANCELLED : ℤ := -32800

/-- Rendering of the session timeout for the deadline message
(`total_seconds()` or `N/A`); the numeric rendering is the model's. -/
def timeoutSecondsStr (timeout : Option ℚ) : String :=
  match timeout with
  | some q => toString q
  | none => "N/A"

/-- `GRPCTransportSession._raise_on_deadline_exceeded` message text. -/
def deadlineMessage (request_name : String) (timeout : Option ℚ) : String :=
  "Timed out while waiting for response to " ++ request_name ++ ". Waited " ++
    timeoutSecondsStr timeout ++ " seconds."

/-- Protocol-side resource contents
(`mcp.types.TextResourceContents` / `BlobResourceContents`; blobs carry a
base64 string). -/
inductive ResourceContentsT where
  | textRC (uri : String) (mimeType : String) (text : String)
  | blobRC (uri : String) (mimeType : String) (blob : String)
  deriving DecidableEq, Repr

/-- Wire `mcp_pb2.ResourceContents`: plain fields with proto3 defaults
(empty string / empty bytes). -/
structure WireResourceContents where
  uri : String
  mime_type : String
  text : String
  blob : List ℕ
  deriving DecidableEq, Repr

/-- The response-to-protocol conversion loop inside
`GRPCTransportSession.read_resource`: nonempty `text` wins, else nonempty
`blob` (re-encoded to base64), else the fragment is dropped. -/
def read_resource_contents_to_types (rs : List WireResourceContents) :
    List ResourceContentsT :=
  match rs with
  | [] => []
  | r :: rest =>
      if r.text ≠ "" then
        .textRC r.uri r.mime_type r.text :: read_resource_contents_to_types rest
      else if r.blob ≠ [] then
        .blobRC r.uri r.mime_type (b64encode r.blob) ::
          read_resource_contents_to_types rest
      else read_resource_contents_to_types rest

/-- `GRPCTransportSession.read_resource`: call `ReadResource` through the
unary wrapper with `mcp-resource-uri` metadata; convert on success; on
`grpc.RpcError` map `NOT_FOUND` to protocol code `-32002`, then
`DEADLINE_EXCEEDED` to `REQUEST_TIMEOUT`, then anything else to
`INTERNAL_ERROR` — in that source order. -/
def read_resource
    (rpc : ℕ → List (String × String) → Except RpcError (List WireResourceContents))
    (uri : String) (negotiated : String)
    (session_read_timeout : Option ℚ) :
    Except McpErrorData (List ResourceContentsT) :=
  match (call_unary_rpc rpc [(MCP_RESOURCE_URI_KEY, uri)] negotiated).result with
  | .ok resp => .ok (read_resource_contents_to_types resp)
  | .error e =>
      if e.code = .NOT_FOUND then
        .error ⟨-32002, "Resource " ++ uri ++ " not found."⟩
      else if e.code = .DEADLINE_EXCEEDED then
        .error ⟨REQUEST_TIMEOUT,
          deadlineMessage "ReadResourceRequest" session_read_timeout⟩
      else
        .error ⟨INTERNAL_ERROR,
          "grpc.RpcError - Failed to read resource " ++ uri ++ ": " ++ e.details⟩

/-! ### Content model (`mcp.types` content blocks, modelled from the spec)

Modelled from the spec: `mcp.types` is imported by the sources but absent
from them.  Per the spec data model, a content block is a tagged variant
over text, image, audio, embedded resource (text xor blob body with URI and
MIME) and resource link (URI and name); image/audio/blob data are base64
strings at the protocol surface.  The `other` constructor stands for any
runtime object that is none of these variants (the sources are dynamically
typed and test each variant with `isinstance`). -/
inductive ContentBlock where
  | text (text : String)
  | image (data : String) (mimeType : String)
  | audio (data : String) (mimeType : String)
  | embeddedText (uri : String) (mimeType : String) (text : String)
  | embeddedBlob (uri : String) (mimeType : String) (blob : String)
  | resourceLink (uri : String) (name : String)
  | other
  deriving DecidableEq, Repr

/-- Wire `mcp_pb2.CallToolResponse.Content`: the `one-of` over text, image,
audio, embedded resource and resource link.  Image/audio/blob carry raw
bytes. -/
inductive WireContent where
  | text (text : String)
  | image (data : List ℕ) (mime_type : String)
  | audio (data : List ℕ) (mime_type : String)
  | embedded_resource (contents : WireResourceContents)
  | resource_link (uri : String) (name : String)
  deriving DecidableEq, Repr

/-- Result of `convert._populate_content_from_content_block`:
`success` models `return True` with the populated proto, `invalid` models
`return False`, `b64Error` models a `binascii.Error` escaping from
`base64.b64decode`. -/
inductive PopulateResult where
  | success (w : WireContent)
  | invalid
  | b64Error
  deriving DecidableEq, Repr

/-- `convert._populate_content_from_content_block`.  For embedded
resources the source writes `resource_contents.mimeType or ""`, which on
the string-valued model is the mime type itself; for resource links the
name is written only when truthy, which coincides with the proto3 default
`""` when it is empty. -/
def populate_content_from_content_block (content_block : ContentBlock) :
    PopulateResult :=
  match content_block with
  | .text t => .success (.text t)
  | .image data mimeType =>
      match b64decode data with
      | some bs => .success (.image bs mimeType)
      | none => .b64Error
  | .audio data mimeType =>
      match b64decode data with
      | some bs => .success (.audio bs mimeType)
      | none => .b64Error
  | .embeddedText uri mimeType t =>
      .success (.embedded_resource ⟨uri, mimeType, t, []⟩)
  | .embeddedBlob uri mimeType blob =>
      match b64decode blob with
      | some bs => .success (.embedded_resource ⟨uri, mimeType, "", bs⟩)
      | none => .b64Error
  | .resourceLink uri name => .success (.resource_link uri name)
  | .other => .invalid

/-- The loop body of `convert.unstructured_tool_output_to_proto`:
`.ok (some ws)` is a completed conversion, `.ok none` models the early
`return []` taken when an item is not a valid content block, `.error ()`
models an escaping `binascii.Error`.  The first failing item wins, in
source order. -/
def convert_tool_output_items (items : List ContentBlock) :
    Except Unit (Option (List WireContent)) :=
  match items with
  | [] => .ok (some [])
  | item :: rest =>
      match populate_content_from_content_block item with
      | .success w => (convert_tool_output_items rest).map (Option.map (w :: ·))
      | .invalid => .ok none
      | .b64Error => .error ()

/-- `convert.unstructured_tool_output_to_proto`: `.ok` is the returned
list (empty when the loop aborted on an invalid item), `.error ()` models
the escaping `binascii.Error`. -/
def unstructured_tool_output_to_proto (tool_output : List ContentBlock) :
    Except Unit (List WireContent) :=
  (convert_tool_output_items tool_output).map (fun o => o.getD [])

/-- `mcp.types.CallToolResult`, modelled from the spec: ordered content
blocks, optional structured JSON object, `isError` flag.  The structured
object is kept abstract here (`σ`). -/
structure CallToolResultT (σ : Type) where
  content : List ContentBlock
  structuredContent : Option σ
  isError : Bool
  deriving DecidableEq, Repr

/-- `convert.proto_result_to_content`: decode wire content items back to
protocol content blocks, re-encoding bytes to base64; embedded resources
with empty `text` and empty `blob` are dropped. -/
def proto_result_to_content {σ : Type} (proto_results : List WireContent)
    (structured_content : Option σ) (is_error : Bool) : CallToolResultT σ :=
  let content : List WireContent → List ContentBlock :=
    fun rs =>
      rs.foldr
        (fun r acc =>
          match r with
          | .text t => ContentBlock.text t :: acc
          | .image bs m => ContentBlock.image (b64encode bs) m :: acc
          | .audio bs m => ContentBlock.audio (b64encode bs) m :: acc
          | .embedded_resource c =>
              if c.text ≠ "" then
                ContentBlock.embeddedText c.uri c.mime_type c.text :: acc
              else if c.blob ≠ [] then
                ContentBlock.embeddedBlob c.uri c.mime_type (b64encode c.blob) :: acc
              else acc
          | .resource_link uri name => ContentBlock.resourceLink uri name :: acc)
        []
  ⟨content proto_results, structured_content, is_error⟩

/-! ### Tool result normalization (`convert.normalize_and_validate_tool_results`)

The structured-content type, the JSON pretty-printer (`json.dumps(.,
indent=2)`) and the JSON-Schema validator (`jsonschema.validate`) are
external libraries; they are parameters of the model.  The validator
returns `some message` when it raises `jsonschema.ValidationError`. -/

/-- A tool definition as used by the normalizer: only `outputSchema`
matters; schemas are JSON objects, abstract here, with an emptiness test
standing for Python truthiness of the schema dict. -/
structure ToolDef (σ : Type) where
  name : String
  outputSchema : σ
  outputSchemaEmpty : Bool
  deriving Repr

/-- The dynamic value returned by a tool, as discriminated by the source:
a two-element tuple `(unstructured, structured)` (whose second component
may be `None`), a mapping, any other iterable, or a non-iterable object
(with its type name, for the error message). -/
inductive ToolReturn (σ : Type) where
  | pair (u : List ContentBlock) (s : Option σ)
  | mapping (s : σ)
  | iter (u : List ContentBlock)
  | nonIterable (typeName : String)

/-- `convert.ToolOutputValidationError`. -/
structure ToolOutputValidationError where
  message : String
  deriving DecidableEq, Repr

/-- `convert.normalize_and_validate_tool_results`. -/
def normalize_and_validate_tool_results {σ : Type}
    (jsonDumps : σ → String) (validate : σ → σ → Option String)
    (results : ToolReturn σ) (tool : Option (ToolDef σ)) :
    Except ToolOutputValidationError (Option (List ContentBlock) × Option σ) :=
  let classified :
      Except ToolOutputValidationError (List ContentBlock × Option σ) :=
    match results with
    | .pair u s => .ok (u, s)
    | .mapping s => .ok ([ContentBlock.text (jsonDumps s)], some s)
    | .iter u => .ok (u, none)
    | .nonIterable typeName =>
        .error ⟨"Unexpected return type from tool: " ++ typeName⟩
  match classified with
  | .error e => .error e
  | .ok (unstructured_content, maybe_structured_content) =>
      let validation : Except ToolOutputValidationError Unit :=
        match tool with
        | none => .ok ()
        | some t =>
            if t.outputSchemaEmpty then .ok ()
            else
              match maybe_structured_content with
              | none =>
                  .error ⟨"Output validation error: outputSchema defined " ++
                    "but no structured output returned"⟩
              | some sc =>
                  match validate sc t.outputSchema with
                  | some msg => .error ⟨"Output validation error: " ++ msg⟩
                  | none => .ok ()
      match validation with
      | .error e => .error e
      | .ok _ =>
          .ok ((if unstructured_content = [] then none
                else some unstructured_content),
            maybe_structured_content)

/-! ### CallTool streaming (`McpServicer.tool_runner` / `McpServicer.CallTool`
and `GrpcSession.send_progress_notification`)

The per-call `asyncio.Queue` carries `CallToolResponse` frames and a `None`
terminator.  The tool runner is the single producer; the RPC loop is the
single consumer.  Cooperative interleavings of the two are modelled by an
explicit step relation on a FIFO-queue state. -/

/-- Arguments of one `send_progress_notification` call made by the tool
(the source applies `str()` to the token; the token is modelled as the
resulting string). -/
structure ProgressEvent where
  progress_token : String
  progress : ℚ
  total : Option ℚ
  message : Option String
  deriving DecidableEq, Repr

/-- A frame on the per-call response queue: a progress notification
(`GrpcSession.send_progress_notification`) or a terminal content/error
frame (`tool_runner`). -/
inductive CallToolFrame (σ : Type) where
  | progress (progress_token : String) (progress : ℚ) (total : Option ℚ)
      (message : Option String)
  | result (content : List WireContent) (structured_content : Option σ)
      (is_error : Bool)

/-- `GrpcSession.send_progress_notification`: the frame it enqueues. -/
def send_progress_notification_frame {σ : Type} (e : ProgressEvent) :
    CallToolFrame σ :=
  .progress e.progress_token e.progress e.total e.message

/-- An error frame as built by `McpServicer._make_error_result` and by the
runner's `except` branch: one text content block, `is_error = True`. -/
def errorFrame {σ : Type} (message : String) : CallToolFrame σ :=
  .result [.text message] none true

/-- Stand-in for the rendered `binascii.Error` text when re-encoding
unstructured output raises inside the runner (the exact text is the
library's; only the frame shape matters to the claims). -/
def binasciiErrorText : String := "Invalid base64-encoded string"

/-- The wire content of a successful terminal frame: the converted
unstructured output (`if unstructured_content:` skips `None`; an empty
list converts to an empty list anyway). -/
def runner_success_content (u : Option (List ContentBlock)) :
    Except Unit (List WireContent) :=
  match u with
  | some us => unstructured_tool_output_to_proto us
  | none => .ok []

/-- The structured field of a successful terminal frame
(`if maybe_structured_content:` — Python dict truthiness via `sEmpty`). -/
def runner_structured {σ : Type} (sEmpty : σ → Bool) (m : Option σ) :
    Option σ :=
  match m with
  | some s => if sEmpty s then none else some s
  | none => none

/-- What happens when the registry runs the tool: it returns a value after
having sent the listed progress notifications, or it raises (rendered
text `excText`) after having sent them. -/
inductive RunOutcome (σ : Type) where
  | returns (results : ToolReturn σ)
  | raises (excText : String)

/-- One `CallTool` invocation as the runner sees it: the initial message
lacks the request body, or the tool is not found in the definition cache,
or the tool runs with the given progress events and outcome. -/
inductive RunnerScenario (σ : Type) where
  | missingBody (excText : String)
  | toolNotFound (tool_name : String)
  | runs (tool_name : String) (tool : ToolDef σ) (events : List ProgressEvent)
      (outcome : RunOutcome σ)

/-- The exact sequence of items `McpServicer.tool_runner` (together with
the progress notifications the tool sends through `GrpcSession`) puts on
the response queue, in order; `none` is the terminator from the `finally`
block (`_make_error_result` additionally enqueues its own terminator,
hence the double `none` on those paths).  `sEmpty` is Python truthiness of
the structured dict; `ParseDict` of the structured content is modelled as
total. -/
def tool_runner_items {σ : Type} (jsonDumps : σ → String)
    (validate : σ → σ → Option String) (sEmpty : σ → Bool)
    (sc : RunnerScenario σ) : List (Option (CallToolFrame σ)) :=
  match sc with
  | .missingBody excText =>
      [some (errorFrame ("Error executing tool None: " ++ excText)), none]
  | .toolNotFound tool_name =>
      [some (errorFrame ("Tool '" ++ tool_name ++ "' not found.")), none, none]
  | .runs tool_name tool events outcome =>
      (events.map (fun e => some (send_progress_notification_frame e))) ++
      match outcome with
      | .raises excText =>
          [some (errorFrame ("Error executing tool " ++ tool_name ++ ": " ++
            excText)), none]
      | .returns results =>
          match normalize_and_validate_tool_results jsonDumps validate results
              (some tool) with
          | .error e => [some (errorFrame e.message), none, none]
          | .ok (unstructured_content, maybe_structured_content) =>
              match runner_success_content unstructured_content with
              | .error _ =>
                  [some (errorFrame ("Error executing tool " ++ tool_name ++
                    ": " ++ binasciiErrorText)), none]
              | .ok ws =>
                  [some (CallToolFrame.result ws
                    (runner_structured sEmpty maybe_structured_content)
                    false), none]

/-- The progress frames of a scenario, in emission order. -/
def scenarioProgressFrames {σ : Type} (sc : RunnerScenario σ) :
    List (CallToolFrame σ) :=
  match sc with
  | .runs _ _ events _ => events.map send_progress_notification_frame
  | _ => []

/-- The terminal content/error frame of a scenario. -/
def scenarioTerminalFrame {σ : Type} (jsonDumps : σ → String)
    (validate : σ → σ → Option String) (sEmpty : σ → Bool)
    (sc : RunnerScenario σ) : CallToolFrame σ :=
  match sc with
  | .missingBody excText =>
      errorFrame ("Error executing tool None: " ++ excText)
  | .toolNotFound tool_name =>
      errorFrame ("Tool '" ++ tool_name ++ "' not found.")
  | .runs tool_name tool _ outcome =>
      match outcome with
      | .raises excText =>
          errorFrame ("Error executing tool " ++ tool_name ++ ": " ++ excText)
      | .returns results =>
          match normalize_and_validate_tool_results jsonDumps validate results
              (some tool) with
          | .error e => errorFrame e.message
          | .ok (unstructured_content, maybe_structured_content) =>
              match runner_success_content unstructured_content with
              | .error _ =>
                  errorFrame ("Error executing tool " ++ tool_name ++ ": " ++
                    binasciiErrorText)
              | .ok ws =>
                  CallToolFrame.result ws
                    (runner_structured sEmpty maybe_structured_content) false

/-- State of one CallTool stream: the items the runner has yet to enqueue,
the FIFO queue contents, the frames already yielded to the client, and
whether the RPC loop has consumed the terminator and stopped. -/
structure StreamState (α : Type) where
  pending : List (Option α)
  queue : List (Option α)
  yielded : List α
  finished : Bool

/-- One cooperative step of the CallTool machinery: the runner enqueues its
next item, or the RPC loop dequeues a frame and yields it, or dequeues the
`None` terminator and stops. -/
inductive StreamStep {α : Type} : StreamState α → StreamState α → Prop where
  | produce (i : Option α) (pending queue : List (Option α)) (yielded : List α) :
      StreamStep ⟨i :: pending, queue, yielded, false⟩
        ⟨pending, queue ++ [i], yielded, false⟩
  | consume_frame (a : α) (pending queue : List (Option α)) (yielded : List α) :
      StreamStep ⟨pending, some a :: queue, yielded, false⟩
        ⟨pending, queue, yielded ++ [a], false⟩
  | consume_null (pending queue : List (Option α)) (yielded : List α) :
      StreamStep ⟨pending, none :: queue, yielded, false⟩
        ⟨pending, queue, yielded, true⟩

/-- The initial state of a CallTool stream for a runner scenario. -/
def initialStreamState {σ : Type} (jsonDumps : σ → String)
    (validate : σ → σ → Option String) (sEmpty : σ → Bool)
    (sc : RunnerScenario σ) : StreamState (CallToolFrame σ) :=
  ⟨tool_runner_items jsonDumps validate sEmpty sc, [], [], false⟩

/-- Invariant of the CallTool stream machine with planned item sequence
`xs.map some ++ none :: _`: while running, the yielded frames, the queue
and the pending items concatenate to the plan; once finished, exactly
`xs` was yielded. -/
def StreamInv {α : Type} (xs : List α) (s : StreamState α) : Prop :=
  if s.finished then s.yielded = xs
  else ∃ t, s.yielded.map some ++ s.queue ++ s.pending = xs.map some ++ none :: t

/-- A string in the image of `b64encode`, i.e. the canonical base64
rendering of some byte list. -/
def canonicalBase64 (s : String) : Prop :=
  ∃ bs : List ℕ, (∀ b ∈ bs, b < 256) ∧ s = b64encode bs

/-! ### TTL conversions (`convert.ttl_from_timedelta` /
`convert.timedelta_from_ttl`)

These two functions compute with CPython `float`s (IEEE-754 binary64):
`timedelta.total_seconds()` is one float division of the exact integer
microsecond count by `10^6`, and every subsequent arithmetic operation
rounds to nearest, ties to even.  The model computes the exact rational
value of each float: `fl` is binary64 rounding on `ℚ` (normal range; the
magnitudes in these claims are far from overflow and subnormals).
`timedelta` values are their exact total microsecond counts (CPython
normalizes a `timedelta` to integer microseconds). -/

/-- Round a rational to the nearest integer, ties to even (IEEE-754
default rounding; also Python `round`). -/
def roundHalfEven (x : ℚ) : ℤ :=
  if x - ⌊x⌋ < 1 / 2 then ⌊x⌋
  else if 1 / 2 < x - ⌊x⌋ then ⌊x⌋ + 1
  else if Even ⌊x⌋ then ⌊x⌋ else ⌊x⌋ + 1

/-- Binary64 rounding of an exact rational: the mantissa is the nearest
53-bit integer (ties to even) at the exponent of the argument. -/
def fl (q : ℚ) : ℚ :=
  if q = 0 then 0
  else
    (roundHalfEven (|q| * (2 : ℚ) ^ ((52 : ℤ) - Int.log 2 |q|)) *
        (2 : ℚ) ^ (Int.log 2 |q| - (52 : ℤ))) *
      (if 0 < q then 1 else -1)

/-- Python `int()` on a float value: truncation toward zero. -/
def pyTrunc (q : ℚ) : ℤ :=
  if 0 ≤ q then ⌊q⌋ else -⌊-q⌋

/-- `convert.ttl_from_timedelta` on a `timedelta` of `T` microseconds:
`total_seconds()` is the rounded division by `10^6`; `seconds` truncates
it; `nanos` truncates `(ttl_float - seconds) * 1000000000`, in which the
`int` operands convert to float (`fl`) and the subtraction and
multiplication each round.  Returns the `Duration` proto as
`(seconds, nanos)`. -/
def ttl_from_timedelta (T : ℤ) : ℤ × ℤ :=
  let ttl_float := fl ((T : ℚ) / 1000000)
  let seconds := pyTrunc ttl_float
  let nanos := pyTrunc (fl (fl (ttl_float - fl (seconds : ℚ)) * 1000000000))
  (seconds, nanos)

/-- `convert.timedelta_from_ttl` on a `Duration` proto `(s, n)`:
`timedelta(seconds=s + n / 1e9)` where the division, the int-to-float
conversions and the addition each round; the `timedelta` constructor then
splits the float with `math.modf` (exact) and rounds the fractional
microseconds half-to-even.  Returns the total microsecond count. -/
def timedelta_from_ttl (s n : ℤ) : ℤ :=
  let x := fl (fl (s : ℚ) + fl (fl (n : ℚ) / 1000000000))
  let whole := pyTrunc x
  let frac := x - (whole : ℚ)
  whole * 1000000 + roundHalfEven (fl (frac * 1000000))

/-! ## Theorems -/

/-- C5: after `CacheEntry.set(v, ttl)` with `ttl > 0`, `get()` at the set
instant returns `v`; at any instant at or after `set_time + ttl`, `get()`
returns `None`; and `get()` never returns a value at or past its expiry
instant. -/
theorem cache_set_get_ttl_spec {V : Type} (st : CacheEntry V) (v : V)
    (ttl now : ℚ) (httl : 0 < ttl) :
    (st.set v ttl now).get now = some v ∧
    (∀ t : ℚ, now + ttl ≤ t → (st.set v ttl now).get t = none) ∧
    (∀ (st2 : CacheEntry V) (t : ℚ), st2.expiry_time ≤ t → st2.get t = none) := by
  refine ⟨?_, fun t ht => ?_, fun st2 t ht => ?_⟩
  · simp only [CacheEntry.set, CacheEntry.get, CacheEntry.is_valid,
      CacheEntry.cancel_expiry_task]
    rw [if_pos]
    simp only [decide_eq_true_eq]
    linarith
  · simp only [CacheEntry.set, CacheEntry.get, CacheEntry.is_valid,
      CacheEntry.cancel_expiry_task]
    rw [if_neg]
    simp only [decide_eq_true_eq, not_lt]
    linarith
  · simp only [CacheEntry.get, CacheEntry.is_valid]
    rw [if_neg]
    simp only [decide_eq_true_eq, not_lt]
    linarith

/-- Witness for C5 at a concrete instance. -/
theorem cache_set_get_ttl_spec_witness :
    ((⟨none, 0, false, none⟩ : CacheEntry ℕ).set 7 10 0).get 0 = some 7 ∧
    ((⟨none, 0, false, none⟩ : CacheEntry ℕ).set 7 10 0).get 10 = none :=
  ⟨(cache_set_get_ttl_spec ⟨none, 0, false, none⟩ 7 10 0 (by norm_num)).1,
   (cache_set_get_ttl_spec ⟨none, 0, false, none⟩ 7 10 0 (by norm_num)).2.1
     10 (by norm_num)⟩

/-- C9: `CacheEntry.set(v, ttl)` with `ttl ≤ 0` schedules no expiry
callback (no pending timer remains) and leaves the entry immediately
invalid: `get()` at the set instant returns `None`. -/
theorem cache_set_nonpositive_ttl_spec {V : Type} (st : CacheEntry V) (v : V)
    (ttl now : ℚ) (httl : ttl ≤ 0) :
    (st.set v ttl now).timer = none ∧
    (st.set v ttl now).is_valid now = false ∧
    (st.set v ttl now).get now = none := by
  have hlt : ¬ now < now + ttl := by linarith
  refine ⟨?_, ?_, ?_⟩
  · simp only [CacheEntry.set, CacheEntry.cancel_expiry_task]
    rw [if_neg]
    rintro ⟨h0, -⟩
    linarith
  · simp only [CacheEntry.set, CacheEntry.is_valid, CacheEntry.cancel_expiry_task]
    simpa using hlt
  · simp only [CacheEntry.set, CacheEntry.get, CacheEntry.is_valid,
      CacheEntry.cancel_expiry_task]
    rw [if_neg]
    simpa using hlt

/-- Witness for C9 at a concrete instance (with a callback installed and
`ttl = 0`). -/
theorem cache_set_nonpositive_ttl_spec_witness :
    ((⟨none, 0, true, some 5⟩ : CacheEntry ℕ).set 7 0 3).timer = none ∧
    ((⟨none, 0, true, some 5⟩ : CacheEntry ℕ).set 7 0 3).get 3 = none :=
  ⟨(cache_set_nonpositive_ttl_spec ⟨none, 0, true, some 5⟩ 7 0 3 le_rfl).1,
   (cache_set_nonpositive_ttl_spec ⟨none, 0, true, some 5⟩ 7 0 3 le_rfl).2.2⟩

/-- C3: the gated handler aborts with `UNIMPLEMENTED`, after sending the
latest supported version as initial metadata, when the incoming metadata
has no `mcp-protocol-version` key, with the message
`Protocol version not provided. Supported versions are: <list>`; and when
the key carries a supported version it echoes that version back in initial
metadata and invokes the wrapped handler. -/
theorem protocol_version_gate_spec {α β : Type} (md : List (String × String))
    (func : α → β) (request : α) :
    (get_metadata_value md MCP_PROTOCOL_VERSION_KEY = none →
      check_protocol_version_from_metadata func (some md) request =
        .error ⟨[(MCP_PROTOCOL_VERSION_KEY, LATEST_PROTOCOL_VERSION)],
          .UNIMPLEMENTED,
          "Protocol version not provided. Supported versions are: " ++
            String.intercalate ", " SUPPORTED_PROTOCOL_VERSIONS⟩) ∧
    (∀ v, get_metadata_value md MCP_PROTOCOL_VERSION_KEY = some v →
      v ∈ SUPPORTED_PROTOCOL_VERSIONS →
      check_protocol_version_from_metadata func (some md) request =
        .ok ([(MCP_PROTOCOL_VERSION_KEY, v)], func request)) := by
  constructor
  · intro h
    simp [check_protocol_version_from_metadata,
      get_protocol_version_from_context, h]
  · intro v h hv
    simp [check_protocol_version_from_metadata,
      get_protocol_version_from_context, h, hv]

/-- Witness for C3: absent key on empty metadata; present supported key. -/
theorem protocol_version_gate_spec_witness :
    check_protocol_version_from_metadata (fun n : ℕ => n + 1) (some []) 4 =
      .error ⟨[(MCP_PROTOCOL_VERSION_KEY, LATEST_PROTOCOL_VERSION)],
        .UNIMPLEMENTED,
        "Protocol version not provided. Supported versions are: " ++
          String.intercalate ", " SUPPORTED_PROTOCOL_VERSIONS⟩ ∧
    check_protocol_version_from_metadata (fun n : ℕ => n + 1)
      (some [("mcp-protocol-version", "2025-06-18")]) 4 =
      .ok ([(MCP_PROTOCOL_VERSION_KEY, "2025-06-18")], 5) :=
  ⟨(protocol_version_gate_spec [] (fun n : ℕ => n + 1) 4).1 rfl,
   (protocol_version_gate_spec [("mcp-protocol-version", "2025-06-18")]
      (fun n : ℕ => n + 1) 4).2 "2025-06-18" (by decide) (by decide)⟩

/-- `_check_and_update_version` returns `some v` exactly when the error is
`UNIMPLEMENTED` and its initial metadata carries a supported version `v`. -/
theorem check_and_update_version_some_iff (e : RpcError) (v : String) :
    check_and_update_version e = some v ↔
      e.code = .UNIMPLEMENTED ∧
      get_metadata_value e.initialMetadata MCP_PROTOCOL_VERSION_KEY = some v ∧
      v ∈ SUPPORTED_PROTOCOL_VERSIONS := by
  unfold check_and_update_version
  by_cases hc : e.code = .UNIMPLEMENTED
  · rw [if_pos hc]
    cases hm : get_metadata_value e.initialMetadata MCP_PROTOCOL_VERSION_KEY with
    | none => simp [hc]
    | some w =>
        show (if w ∈ SUPPORTED_PROTOCOL_VERSIONS then some w else none) = some v ↔ _
        by_cases hw : w ∈ SUPPORTED_PROTOCOL_VERSIONS
        · rw [if_pos hw]
          constructor
          · intro h1
            injection h1 with h1
            subst h1
            exact ⟨hc, rfl, hw⟩
          · rintro ⟨-, h1, -⟩
            injection h1 with h1
            subst h1
            rfl
        · rw [if_neg hw]
          constructor
          · intro h1; exact absurd h1 (by simp)
          · rintro ⟨-, h1, h2⟩
            injection h1 with h1
            subst h1
            exact absurd h2 hw
  · rw [if_neg hc]
    constructor
    · intro h1; exact absurd h1 (by simp)
    · rintro ⟨h1, -⟩
      exact absurd h1 hc

/-- C2: the unary wrapper makes at most two attempts; on first-attempt
success it returns that response with one attempt; a second attempt is
made exactly when the first fails with `UNIMPLEMENTED` and the error's
initial metadata carries a supported `mcp-protocol-version`; in that case
the second attempt's metadata carries the newly negotiated version and a
successful second response is returned; every other failure is re-raised
after a single attempt. -/
theorem call_unary_rpc_retry_spec {β : Type}
    (rpc : ℕ → List (String × String) → Except RpcError β)
    (metadata : List (String × String)) (negotiated : String) :
    (call_unary_rpc rpc metadata negotiated).attempts ≤ 2 ∧
    (∀ r, rpc 1 (metadata ++ [(MCP_PROTOCOL_VERSION_KEY, negotiated)]) = .ok r →
      call_unary_rpc rpc metadata negotiated =
        ⟨.ok r, 1, [metadata ++ [(MCP_PROTOCOL_VERSION_KEY, negotiated)]],
          negotiated⟩) ∧
    (∀ e, rpc 1 (metadata ++ [(MCP_PROTOCOL_VERSION_KEY, negotiated)]) = .error e →
      ((call_unary_rpc rpc metadata negotiated).attempts = 2 ↔
        (e.code = .UNIMPLEMENTED ∧ ∃ v,
          get_metadata_value e.initialMetadata MCP_PROTOCOL_VERSION_KEY = some v ∧
          v ∈ SUPPORTED_PROTOCOL_VERSIONS))) ∧
    (∀ e v, rpc 1 (metadata ++ [(MCP_PROTOCOL_VERSION_KEY, negotiated)]) = .error e →
      check_and_update_version e = some v →
      (call_unary_rpc rpc metadata negotiated).sentMetadata =
        [metadata ++ [(MCP_PROTOCOL_VERSION_KEY, negotiated)],
         metadata ++ [(MCP_PROTOCOL_VERSION_KEY, v)]] ∧
      (call_unary_rpc rpc metadata negotiated).negotiated = v ∧
      (∀ r2, rpc 2 (metadata ++ [(MCP_PROTOCOL_VERSION_KEY, v)]) = .ok r2 →
        (call_unary_rpc rpc metadata negotiated).result = .ok r2) ∧
      (∀ e2, rpc 2 (metadata ++ [(MCP_PROTOCOL_VERSION_KEY, v)]) = .error e2 →
        (call_unary_rpc rpc metadata negotiated).result = .error e2)) ∧
    (∀ e, rpc 1 (metadata ++ [(MCP_PROTOCOL_VERSION_KEY, negotiated)]) = .error e →
      check_and_update_version e = none →
      call_unary_rpc rpc metadata negotiated =
        ⟨.error e, 1, [metadata ++ [(MCP_PROTOCOL_VERSION_KEY, negotiated)]],
          negotiated⟩) := by
  refine ⟨?_, ?_, ?_, ?_, ?_⟩
  · unfold call_unary_rpc
    split
    · simp
    · split
      · split <;> simp
      · simp
  · intro r h
    unfold call_unary_rpc
    simp only [h]
  · intro e h
    unfold call_unary_rpc
    simp only [h]
    cases hv : check_and_update_version e with
    | none =>
        simp only [hv]
        constructor
        · intro h2
          exact absurd h2 (by norm_num)
        · rintro ⟨hc2, v, hm, hs⟩
          have h4 := (check_and_update_version_some_iff e v).mpr ⟨hc2, hm, hs⟩
          rw [hv] at h4
          exact Option.noConfusion h4
    | some v =>
        simp only [hv]
        have hiff := (check_and_update_version_some_iff e v).mp hv
        cases h2 : rpc 2 (metadata ++ [(MCP_PROTOCOL_VERSION_KEY, v)]) with
        | ok r2 =>
            simp only [h2]
            exact ⟨fun _ => ⟨hiff.1, v, hiff.2.1, hiff.2.2⟩, fun _ => by trivial⟩
        | error e2 =>
            simp only [h2]
            exact ⟨fun _ => ⟨hiff.1, v, hiff.2.1, hiff.2.2⟩, fun _ => by trivial⟩
  · intro e v h hv
    unfold call_unary_rpc
    simp only [h, hv]
    cases h2 : rpc 2 (metadata ++ [(MCP_PROTOCOL_VERSION_KEY, v)]) with
    | ok r2 =>
        simp only [h2]
        refine ⟨by trivial, by trivial, fun r hr => ?_, fun e2 he => ?_⟩
        · injection hr with hr
          subst hr
          rfl
        · exact Except.noConfusion he
    | error e2 =>
        simp only [h2]
        refine ⟨by trivial, by trivial, fun r hr => ?_, fun e3 he => ?_⟩
        · exact Except.noConfusion hr
        · injection he with he
          subst he
          rfl
  · intro e h hv
    unfold call_unary_rpc
    simp only [h, hv]

/-- Witness for C2: a first attempt failing with `UNIMPLEMENTED` carrying
the supported version `2025-06-18` retries once and returns the second
response. -/
theorem call_unary_rpc_retry_spec_witness :
    (call_unary_rpc
        (fun attempt _ =>
          if attempt = 1 then
            .error ⟨.UNIMPLEMENTED,
              [("mcp-protocol-version", "2025-06-18")], "unimplemented"⟩
          else .ok 42)
        [] "2025-11-25").result = .ok 42 ∧
    (call_unary_rpc
        (fun attempt _ =>
          if attempt = 1 then
            .error ⟨.UNIMPLEMENTED,
              [("mcp-protocol-version", "2025-06-18")], "unimplemented"⟩
          else .ok 42)
        [] "2025-11-25").negotiated = "2025-06-18" := by
  have h := (call_unary_rpc_retry_spec
    (fun attempt _ =>
      if attempt = 1 then
        .error (⟨.UNIMPLEMENTED,
          [("mcp-protocol-version", "2025-06-18")], "unimplemented"⟩ : RpcError)
      else .ok (42 : ℕ))
    [] "2025-11-25").2.2.2.1
    ⟨.UNIMPLEMENTED, [("mcp-protocol-version", "2025-06-18")], "unimplemented"⟩
    "2025-06-18" rfl (by decide)
  exact ⟨h.2.2.1 42 rfl, h.2.1⟩

/-- C8: when the wrapped `ReadResource` call fails with status
`NOT_FOUND`, `read_resource` raises the protocol error with code `-32002`
and message `Resource <uri> not found.` — mapped ahead of the
deadline-exceeded and internal-error mappings, whose codes differ. -/
theorem read_resource_not_found_spec
    (rpc : ℕ → List (String × String) → Except RpcError (List WireResourceContents))
    (uri negotiated : String) (timeout : Option ℚ) (e : RpcError)
    (h : (call_unary_rpc rpc [(MCP_RESOURCE_URI_KEY, uri)] negotiated).result =
      .error e)
    (hc : e.code = .NOT_FOUND) :
    read_resource rpc uri negotiated timeout =
      .error ⟨-32002, "Resource " ++ uri ++ " not found."⟩ ∧
    (-32002 : ℤ) ≠ REQUEST_TIMEOUT ∧ (-32002 : ℤ) ≠ INTERNAL_ERROR := by
  refine ⟨?_, by decide, by decide⟩
  unfold read_resource
  rw [h]
  simp [hc]

/-- Witness for C8 at a concrete instance (`test://nonexistent`). -/
theorem read_resource_not_found_spec_witness :
    read_resource (fun _ _ => .error ⟨.NOT_FOUND, [], "not found"⟩)
      "test://nonexistent" "2025-11-25" none =
      .error ⟨-32002, "Resource test://nonexistent not found."⟩ := by
  have h := (read_resource_not_found_spec
    (fun _ _ => .error ⟨.NOT_FOUND, [], "not found"⟩)
    "test://nonexistent" "2025-11-25" none
    ⟨.NOT_FOUND, [], "not found"⟩ rfl rfl).1
  simpa using h

/-- C6: tool-result normalization and validation — a two-element tuple is
split into `(unstructured, structured)`; a mapping becomes structured-only
with one synthesized text block of its pretty-printed JSON; any other
iterable is unstructured-only; a non-iterable raises `OutputValidation`;
with a non-empty output schema, missing structured content raises, a
failing JSON-Schema validation raises, and a passing one proceeds. -/
theorem normalize_and_validate_spec {σ : Type} (jsonDumps : σ → String)
    (validate : σ → σ → Option String) :
    (∀ (tool : Option (ToolDef σ)) (tn : String),
      normalize_and_validate_tool_results jsonDumps validate
          (.nonIterable tn) tool =
        .error ⟨"Unexpected return type from tool: " ++ tn⟩) ∧
    (∀ (tool : Option (ToolDef σ)),
      (∀ t, tool = some t → t.outputSchemaEmpty = true) →
      (∀ u s, normalize_and_validate_tool_results jsonDumps validate
          (.pair u s) tool =
        .ok (if u = [] then none else some u, s)) ∧
      (∀ s, normalize_and_validate_tool_results jsonDumps validate
          (.mapping s) tool =
        .ok (some [ContentBlock.text (jsonDumps s)], some s)) ∧
      (∀ u, normalize_and_validate_tool_results jsonDumps validate
          (.iter u) tool =
        .ok (if u = [] then none else some u, none))) ∧
    (∀ (t : ToolDef σ), t.outputSchemaEmpty = false →
      (∀ u, normalize_and_validate_tool_results jsonDumps validate
          (.pair u none) (some t) =
        .error ⟨"Output validation error: outputSchema defined " ++
          "but no structured output returned"⟩) ∧
      (∀ u, normalize_and_validate_tool_results jsonDumps validate
          (.iter u) (some t) =
        .error ⟨"Output validation error: outputSchema defined " ++
          "but no structured output returned"⟩)) ∧
    (∀ (t : ToolDef σ) (s : σ) (msg : String), t.outputSchemaEmpty = false →
      validate s t.outputSchema = some msg →
      normalize_and_validate_tool_results jsonDumps validate
          (.mapping s) (some t) =
        .error ⟨"Output validation error: " ++ msg⟩ ∧
      (∀ u, normalize_and_validate_tool_results jsonDumps validate
          (.pair u (some s)) (some t) =
        .error ⟨"Output validation error: " ++ msg⟩)) ∧
    (∀ (t : ToolDef σ) (s : σ), t.outputSchemaEmpty = false →
      validate s t.outputSchema = none →
      ∀ u, normalize_and_validate_tool_results jsonDumps validate
          (.pair u (some s)) (some t) =
        .ok (if u = [] then none else some u, some s)) := by
  refine ⟨?_, ?_, ?_, ?_, ?_⟩
  · intro tool tn
    cases tool <;> rfl
  · intro tool htool
    refine ⟨fun u s => ?_, fun s => ?_, fun u => ?_⟩
    · cases tool with
      | none =>
          cases s <;>
            simp [normalize_and_validate_tool_results]
      | some t =>
          have ht := htool t rfl
          cases s <;>
            simp [normalize_and_validate_tool_results, ht]
    · cases tool with
      | none => simp [normalize_and_validate_tool_results]
      | some t =>
          have ht := htool t rfl
          simp [normalize_and_validate_tool_results, ht]
    · cases tool with
      | none => simp [normalize_and_validate_tool_results]
      | some t =>
          have ht := htool t rfl
          simp [normalize_and_validate_tool_results, ht]
  · intro t ht
    exact ⟨fun u => by simp [normalize_and_validate_tool_results, ht],
      fun u => by simp [normalize_and_validate_tool_results, ht]⟩
  · intro t s msg ht hv
    exact ⟨by simp [normalize_and_validate_tool_results, ht, hv],
      fun u => by simp [normalize_and_validate_tool_results, ht, hv]⟩
  · intro t s ht hv u
    simp [normalize_and_validate_tool_results, ht, hv]

/-- Witness for C6 with a concrete structured type and validator. -/
theorem normalize_and_validate_spec_witness :
    normalize_and_validate_tool_results (fun _ : ℕ => "{}")
        (fun _ _ => none) (.nonIterable "int") none =
      .error ⟨"Unexpected return type from tool: int"⟩ ∧
    normalize_and_validate_tool_results (fun _ : ℕ => "{}")
        (fun _ _ => none) (.mapping 3) none =
      .ok (some [ContentBlock.text "{}"], some 3) ∧
    normalize_and_validate_tool_results (fun _ : ℕ => "{}")
        (fun _ _ => none) (.iter [ContentBlock.text "hi"])
        (some ⟨"t", 0, false⟩) =
      .error ⟨"Output validation error: outputSchema defined " ++
        "but no structured output returned"⟩ :=
  ⟨(normalize_and_validate_spec (fun _ : ℕ => "{}") (fun _ _ => none)).1
      none "int",
   ((normalize_and_validate_spec (fun _ : ℕ => "{}") (fun _ _ => none)).2.1
      none (fun _ h => Option.noConfusion h)).2.1 3,
   ((normalize_and_validate_spec (fun _ : ℕ => "{}") (fun _ _ => none)).2.2.1
      ⟨"t", 0, false⟩ rfl).2 [ContentBlock.text "hi"]⟩

/-- Decoding an alphabet character recovers its 6-bit value. -/
theorem b64Index_b64Char : ∀ n, n < 64 → b64Index (b64Char n) = some n := by
  decide

/-- Alphabet characters are never the padding character. -/
theorem b64Char_ne_pad : ∀ n, n < 64 → b64Char n ≠ '=' := by decide

/-- Chunk decoding inverts chunk encoding on byte lists. -/
theorem b64decodeChunks_encodeList (bs : List ℕ) (h : ∀ b ∈ bs, b < 256) :
    b64decodeChunks (b64encodeList bs) = some bs := by
  induction bs using b64encodeList.induct with
  | case1 => rfl
  | case2 a =>
      have ha : a < 256 := h a (by simp)
      have h1 := b64Index_b64Char (a / 4) (by omega)
      have h2 := b64Index_b64Char (a % 4 * 16) (by omega)
      simp only [b64encodeList, b64decodeChunks, h1, h2, and_self, reduceIte,
        Option.some.injEq, List.cons.injEq, and_true]
      omega
  | case3 a b =>
      have ha : a < 256 := h a (by simp)
      have hb : b < 256 := h b (by simp)
      have h1 := b64Index_b64Char (a / 4) (by omega)
      have h2 := b64Index_b64Char (a % 4 * 16 + b / 16) (by omega)
      have h3 := b64Index_b64Char (b % 16 * 4) (by omega)
      have h4 := b64Char_ne_pad (b % 16 * 4) (by omega)
      simp only [b64encodeList, b64decodeChunks, h1, h2, h3, h4, reduceIte,
        Option.some.injEq, List.cons.injEq, and_true]
      omega
  | case4 a b c rest ih =>
      have ha : a < 256 := h a (by simp)
      have hb : b < 256 := h b (by simp)
      have hc : c < 256 := h c (by simp)
      have hrest : ∀ x ∈ rest, x < 256 := fun x hx => h x (by simp [hx])
      have h1 := b64Index_b64Char (a / 4) (by omega)
      have h2 := b64Index_b64Char (a % 4 * 16 + b / 16) (by omega)
      have h3 := b64Index_b64Char (b % 16 * 4 + c / 64) (by omega)
      have h4 := b64Char_ne_pad (b % 16 * 4 + c / 64) (by omega)
      have h5 := b64Index_b64Char (c % 64) (by omega)
      have h6 := b64Char_ne_pad (c % 64) (by omega)
      simp only [b64encodeList, b64decodeChunks, h1, h2, h3, h4, h5, h6,
        reduceIte, ih hrest, Option.map_some, Option.map_some',
        Option.some.injEq, List.cons.injEq, and_true]
      omega

/-- Every character emitted by the encoder survives the decoder's filter. -/
theorem b64encodeList_filter (bs : List ℕ) (h : ∀ b ∈ bs, b < 256) :
    (b64encodeList bs).filter
      (fun c => (b64Index c).isSome || c = '=') = b64encodeList bs := by
  induction bs using b64encodeList.induct with
  | case1 => rfl
  | case2 a =>
      have ha : a < 256 := h a (by simp)
      have h1 := b64Index_b64Char (a / 4) (by omega)
      have h2 := b64Index_b64Char (a % 4 * 16) (by omega)
      simp only [b64encodeList, List.filter_cons, h1, h2,
        Option.isSome_some, Bool.true_or, Bool.or_true, decide_True,
        reduceIte, List.filter_nil]
  | case3 a b =>
      have ha : a < 256 := h a (by simp)
      have hb : b < 256 := h b (by simp)
      have h1 := b64Index_b64Char (a / 4) (by omega)
      have h2 := b64Index_b64Char (a % 4 * 16 + b / 16) (by omega)
      have h3 := b64Index_b64Char (b % 16 * 4) (by omega)
      simp only [b64encodeList, List.filter_cons, h1, h2, h3,
        Option.isSome_some, Bool.true_or, Bool.or_true, decide_True,
        reduceIte, List.filter_nil]
  | case4 a b c rest ih =>
      have ha : a < 256 := h a (by simp)
      have hb : b < 256 := h b (by simp)
      have hc : c < 256 := h c (by simp)
      have hrest : ∀ x ∈ rest, x < 256 := fun x hx => h x (by simp [hx])
      have h1 := b64Index_b64Char (a / 4) (by omega)
      have h2 := b64Index_b64Char (a % 4 * 16 + b / 16) (by omega)
      have h3 := b64Index_b64Char (b % 16 * 4 + c / 64) (by omega)
      have h5 := b64Index_b64Char (c % 64) (by omega)
      simp only [b64encodeList, List.filter_cons, h1, h2, h3, h5,
        Option.isSome_some, Bool.true_or, reduceIte]
      exact congrArg _ (congrArg _ (congrArg _ (congrArg _ (ih hrest))))

/-- `base64.b64decode` inverts `base64.b64encode` on byte lists. -/
theorem b64decode_b64encode (bs : List ℕ) (h : ∀ b ∈ bs, b < 256) :
    b64decode (b64encode bs) = some bs := by
  unfold b64decode b64encode
  rw [show (String.mk (b64encodeList bs)).toList = b64encodeList bs from rfl]
  rw [b64encodeList_filter bs h]
  exact b64decodeChunks_encodeList bs h

/-- All-successful item conversion yields one wire message per item. -/
theorem convert_tool_output_items_forall2 (items : List ContentBlock)
    (ws : List WireContent)
    (h : List.Forall₂
      (fun i w => populate_content_from_content_block i = .success w) items ws) :
    convert_tool_output_items items = .ok (some ws) := by
  induction h with
  | nil => rfl
  | cons hiw htail ih =>
      simp only [convert_tool_output_items, hiw, ih]
      rfl

/-- An invalid item after a successful prefix aborts the loop with `[]`. -/
theorem convert_tool_output_items_invalid (pre : List ContentBlock)
    (bad : ContentBlock) (post : List ContentBlock)
    (hpre : ∀ i ∈ pre, ∃ w, populate_content_from_content_block i = .success w)
    (hbad : populate_content_from_content_block bad = .invalid) :
    convert_tool_output_items (pre ++ bad :: post) = .ok none := by
  induction pre with
  | nil => simp only [List.nil_append, convert_tool_output_items, hbad]
  | cons p pre ih =>
      obtain ⟨w, hw⟩ := hpre p (by simp)
      have ih2 := ih (fun i hi => hpre i (by simp [hi]))
      simp only [List.cons_append, convert_tool_output_items, hw,
        List.append_eq, ih2]
      rfl

/-- C10 (amended): `unstructured_tool_output_to_proto` returns `[]` on the
empty sequence; when every item converts successfully it returns one wire
message per item in order; and when an item is not a recognized
content-block variant (with all earlier items converting), it returns `[]`,
discarding the earlier conversions.  (An item whose base64 data does not
decode instead raises — see the counterexample.) -/
theorem unstructured_tool_output_spec (items : List ContentBlock) :
    (items = [] → unstructured_tool_output_to_proto items = .ok []) ∧
    (∀ ws : List WireContent,
      List.Forall₂
        (fun i w => populate_content_from_content_block i = .success w)
        items ws →
      unstructured_tool_output_to_proto items = .ok ws) ∧
    (∀ pre bad post, items = pre ++ bad :: post →
      (∀ i ∈ pre, ∃ w, populate_content_from_content_block i = .success w) →
      populate_content_from_content_block bad = .invalid →
      unstructured_tool_output_to_proto items = .ok []) := by
  refine ⟨?_, ?_, ?_⟩
  · rintro rfl
    rfl
  · intro ws h
    unfold unstructured_tool_output_to_proto
    rw [convert_tool_output_items_forall2 items ws h]
    rfl
  · rintro pre bad post rfl hpre hbad
    unfold unstructured_tool_output_to_proto
    rw [convert_tool_output_items_invalid pre bad post hpre hbad]
    rfl

/-- Witness for C10 (amended): a text and an image item convert in order;
an unrecognized item empties the result. -/
theorem unstructured_tool_output_spec_witness :
    unstructured_tool_output_to_proto
        [ContentBlock.text "hi", ContentBlock.image "AQID" "image/png"] =
      .ok [WireContent.text "hi", WireContent.image [1, 2, 3] "image/png"] ∧
    unstructured_tool_output_to_proto
        [ContentBlock.text "hi", ContentBlock.other] = .ok [] :=
  ⟨(unstructured_tool_output_spec
      [ContentBlock.text "hi", ContentBlock.image "AQID" "image/png"]).2.1
      [WireContent.text "hi", WireContent.image [1, 2, 3] "image/png"]
      (by refine List.Forall₂.cons rfl (List.Forall₂.cons ?_ List.Forall₂.nil)
          show populate_content_from_content_block
            (ContentBlock.image "AQID" "image/png") = _
          rfl),
   (unstructured_tool_output_spec
      [ContentBlock.text "hi", ContentBlock.other]).2.2
      [ContentBlock.text "hi"] ContentBlock.other []
      rfl (by rintro i hi
              rcases List.mem_singleton.mp hi with rfl
              exact ⟨WireContent.text "hi", rfl⟩) rfl⟩

/-- C10 counterexample: an image item whose data is not decodable base64
(`"A"`) is a recognized content-block variant, yet the function raises a
`binascii.Error` instead of returning a wire message for it. -/
theorem unstructured_tool_output_counterexample :
    unstructured_tool_output_to_proto [ContentBlock.image "A" "image/png"] =
      .error () ∧
    ∀ ws : List WireContent,
      unstructured_tool_output_to_proto [ContentBlock.image "A" "image/png"] ≠
        .ok ws := by
  constructor
  · rfl
  · intro ws h
    rw [show unstructured_tool_output_to_proto
        [ContentBlock.image "A" "image/png"] = .error () from rfl] at h
    exact Except.noConfusion h

/-- C4 (amended): encode-then-decode is the identity on content blocks of
each variant, provided image/audio/blob data are canonical base64 (for the
blob, of a nonempty byte list) and embedded text is nonempty; the
structured content and error flag pass through unchanged. -/
theorem content_block_roundtrip {σ : Type} (block : ContentBlock)
    (sc : Option σ) (is_error : Bool)
    (hblock : match block with
      | .text _ => True
      | .image data _ => canonicalBase64 data
      | .audio data _ => canonicalBase64 data
      | .embeddedText _ _ t => t ≠ ""
      | .embeddedBlob _ _ blob =>
          ∃ bs, (∀ b ∈ bs, b < 256) ∧ bs ≠ [] ∧ blob = b64encode bs
      | .resourceLink _ _ => True
      | .other => False) :
    ∃ w, populate_content_from_content_block block = .success w ∧
      proto_result_to_content [w] sc is_error =
        ⟨[block], sc, is_error⟩ := by
  cases block with
  | text t => exact ⟨.text t, rfl, rfl⟩
  | image data m =>
      obtain ⟨bs, hbs, rfl⟩ := hblock
      refine ⟨.image bs m, ?_, rfl⟩
      simp only [populate_content_from_content_block,
        b64decode_b64encode bs hbs]
  | audio data m =>
      obtain ⟨bs, hbs, rfl⟩ := hblock
      refine ⟨.audio bs m, ?_, rfl⟩
      simp only [populate_content_from_content_block,
        b64decode_b64encode bs hbs]
  | embeddedText uri m t =>
      refine ⟨.embedded_resource ⟨uri, m, t, []⟩, rfl, ?_⟩
      simp only [proto_result_to_content, List.foldr_cons, List.foldr_nil]
      rw [if_pos]
      exact hblock
  | embeddedBlob uri m blob =>
      obtain ⟨bs, hbs, hne, rfl⟩ := hblock
      refine ⟨.embedded_resource ⟨uri, m, "", bs⟩, ?_, ?_⟩
      · simp only [populate_content_from_content_block,
          b64decode_b64encode bs hbs]
      · simp only [proto_result_to_content, List.foldr_cons, List.foldr_nil]
        rw [if_neg (by simp), if_pos]
        exact hne
  | resourceLink uri name => exact ⟨.resource_link uri name, rfl, rfl⟩
  | other => exact hblock.elim

/-- Witness for C4 (amended) at concrete blocks of two variants. -/
theorem content_block_roundtrip_witness :
    (∃ w, populate_content_from_content_block
        (ContentBlock.image "AQID" "image/png") = .success w ∧
      proto_result_to_content [w] (none : Option Unit) false =
        ⟨[ContentBlock.image "AQID" "image/png"], none, false⟩) ∧
    (∃ w, populate_content_from_content_block
        (ContentBlock.embeddedText "test://r" "text/plain" "hello") =
          .success w ∧
      proto_result_to_content [w] (none : Option Unit) false =
        ⟨[ContentBlock.embeddedText "test://r" "text/plain" "hello"],
          none, false⟩) :=
  ⟨content_block_roundtrip (ContentBlock.image "AQID" "image/png") none false
      ⟨[1, 2, 3], by decide, by decide⟩,
   content_block_roundtrip
      (ContentBlock.embeddedText "test://r" "text/plain" "hello") none false
      (by decide)⟩

/-- C4 counterexample: an embedded text resource with empty text encodes
successfully but decodes to no content block at all — the round trip drops
it, so the decoded result is not equal to the original. -/
theorem content_roundtrip_counterexample :
    populate_content_from_content_block
        (ContentBlock.embeddedText "test://res" "text/plain" "") =
      .success (.embedded_resource ⟨"test://res", "text/plain", "", []⟩) ∧
    proto_result_to_content
        [WireContent.embedded_resource ⟨"test://res", "text/plain", "", []⟩]
        (none : Option Unit) false =
      ⟨[], none, false⟩ ∧
    (⟨[], none, false⟩ : CallToolResultT Unit) ≠
      ⟨[ContentBlock.embeddedText "test://res" "text/plain" ""], none, false⟩ := by
  refine ⟨rfl, ?_, by decide⟩
  rfl

/-- Two decompositions into a `some`-mapped prefix before the first `none`
agree on the prefix. -/
theorem map_some_append_none_inj {α : Type} :
    ∀ (a b : List α) (t1 t2 : List (Option α)),
      a.map some ++ none :: t1 = b.map some ++ none :: t2 → a = b := by
  intro a
  induction a with
  | nil =>
      intro b t1 t2 h
      cases b with
      | nil => rfl
      | cons y b =>
          simp only [List.map_nil, List.nil_append, List.map_cons,
            List.cons_append, List.cons.injEq] at h
          exact Option.noConfusion h.1
  | cons x a ih =>
      intro b t1 t2 h
      cases b with
      | nil =>
          simp only [List.map_cons, List.cons_append, List.map_nil,
            List.nil_append, List.cons.injEq] at h
          exact Option.noConfusion h.1
      | cons y b =>
          simp only [List.map_cons, List.cons_append, List.cons.injEq] at h
          have hx : x = y := Option.some_inj.mp h.1
          rw [hx, ih b t1 t2 h.2]

/-- One machine step preserves the stream invariant. -/
theorem streamInv_step {α : Type} {xs : List α} {s s2 : StreamState α}
    (hstep : StreamStep s s2) (hinv : StreamInv xs s) : StreamInv xs s2 := by
  cases hstep with
  | produce i pending queue yielded =>
      unfold StreamInv at hinv ⊢
      simp only [if_neg Bool.false_ne_true] at hinv ⊢
      obtain ⟨t, ht⟩ := hinv
      refine ⟨t, ?_⟩
      rw [← ht]
      simp [List.append_assoc]
  | consume_frame a pending queue yielded =>
      unfold StreamInv at hinv ⊢
      simp only [if_neg Bool.false_ne_true] at hinv ⊢
      obtain ⟨t, ht⟩ := hinv
      refine ⟨t, ?_⟩
      rw [← ht]
      simp [List.append_assoc]
  | consume_null pending queue yielded =>
      unfold StreamInv at hinv ⊢
      simp only [if_neg Bool.false_ne_true, if_pos rfl] at hinv ⊢
      obtain ⟨t, ht⟩ := hinv
      have ht2 : yielded.map some ++ none :: (queue ++ pending) =
          xs.map some ++ none :: t := by
        rw [← ht]
        simp [List.append_assoc]
      exact map_some_append_none_inj yielded xs (queue ++ pending) t ht2

/-- Any completed run of the stream machine over a plan
`xs.map some ++ none :: rest` yields exactly `xs`, in order. -/
theorem stream_run {α : Type} (xs : List α) (rest : List (Option α))
    (s : StreamState α)
    (h : Relation.ReflTransGen StreamStep
      ⟨xs.map some ++ none :: rest, [], [], false⟩ s)
    (hfin : s.finished = true) : s.yielded = xs := by
  have hinv : StreamInv xs s := by
    clear hfin
    induction h with
    | refl =>
        unfold StreamInv
        simp only [if_neg Bool.false_ne_true]
        exact ⟨rest, by simp⟩
    | tail hsteps hstep ih => exact streamInv_step hstep ih
  unfold StreamInv at hinv
  rw [hfin] at hinv
  simpa using hinv

/-- The runner's enqueue sequence is its progress frames, then its terminal
frame, then a terminator (and possibly a redundant second terminator). -/
theorem tool_runner_items_shape {σ : Type} (jsonDumps : σ → String)
    (validate : σ → σ → Option String) (sEmpty : σ → Bool)
    (sc : RunnerScenario σ) :
    ∃ rest, tool_runner_items jsonDumps validate sEmpty sc =
      ((scenarioProgressFrames sc ++
        [scenarioTerminalFrame jsonDumps validate sEmpty sc]).map some) ++
        none :: rest := by
  cases sc with
  | missingBody excText => exact ⟨[], rfl⟩
  | toolNotFound tool_name => exact ⟨[none], rfl⟩
  | runs tool_name tool events outcome =>
      cases outcome with
      | raises excText =>
          refine ⟨[], ?_⟩
          simp [tool_runner_items, scenarioProgressFrames,
            scenarioTerminalFrame, List.map_append, List.map_map,
            Function.comp_def]
      | returns results =>
          rcases hN : normalize_and_validate_tool_results jsonDumps validate
              results (some tool) with e | p
          · refine ⟨[none], ?_⟩
            simp [tool_runner_items, scenarioProgressFrames,
              scenarioTerminalFrame, hN, List.map_append, List.map_map,
              Function.comp_def]
          · obtain ⟨u, m⟩ := p
            rcases hC : runner_success_content u with e2 | ws
            · refine ⟨[], ?_⟩
              simp [tool_runner_items, scenarioProgressFrames,
                scenarioTerminalFrame, hN, hC, List.map_append, List.map_map,
                Function.comp_def]
            · refine ⟨[], ?_⟩
              simp [tool_runner_items, scenarioProgressFrames,
                scenarioTerminalFrame, hN, hC, List.map_append, List.map_map,
                Function.comp_def]

/-- C7: in every completed cooperative interleaving of one CallTool
stream, the frames yielded to the client are exactly the progress frames
the tool emitted through `send_progress_notification`, in emission order,
followed by the terminal content/error frame; the terminal frame is the
last frame before the `None` terminator stops the stream. -/
theorem calltool_stream_order {σ : Type} (jsonDumps : σ → String)
    (validate : σ → σ → Option String) (sEmpty : σ → Bool)
    (sc : RunnerScenario σ) (s : StreamState (CallToolFrame σ))
    (h : Relation.ReflTransGen StreamStep
      (initialStreamState jsonDumps validate sEmpty sc) s)
    (hfin : s.finished = true) :
    s.yielded = scenarioProgressFrames sc ++
      [scenarioTerminalFrame jsonDumps validate sEmpty sc] := by
  obtain ⟨rest, hshape⟩ := tool_runner_items_shape jsonDumps validate sEmpty sc
  unfold initialStreamState at h
  rw [hshape] at h
  exact stream_run _ rest s h hfin

/-- Witness for C7: an explicit completed run — the runner enqueues one
progress frame, the success frame and the terminator; the RPC loop yields
the progress frame, then the terminal frame, then stops. -/
theorem calltool_stream_order_witness :
    (⟨[], [],
      [CallToolFrame.progress "1" 1 none none,
       CallToolFrame.result [WireContent.text "done"] none false], true⟩ :
        StreamState (CallToolFrame Unit)).yielded =
      scenarioProgressFrames
        (RunnerScenario.runs "t" ⟨"t", (), true⟩ [⟨"1", 1, none, none⟩]
          (.returns (.iter [ContentBlock.text "done"]))) ++
      [scenarioTerminalFrame (fun _ => "{}") (fun _ _ => none)
        (fun _ => true)
        (RunnerScenario.runs "t" ⟨"t", (), true⟩ [⟨"1", 1, none, none⟩]
          (.returns (.iter [ContentBlock.text "done"])))] := by
  refine calltool_stream_order (fun _ => "{}") (fun _ _ => none)
    (fun _ => true)
    (RunnerScenario.runs "t" ⟨"t", (), true⟩ [⟨"1", 1, none, none⟩]
      (.returns (.iter [ContentBlock.text "done"])))
    _ ?_ rfl
  show Relation.ReflTransGen StreamStep
    ⟨[some (CallToolFrame.progress "1" 1 none none),
      some (CallToolFrame.result [WireContent.text "done"] none false),
      none], [], [], false⟩
    ⟨[], [],
      [CallToolFrame.progress "1" 1 none none,
       CallToolFrame.result [WireContent.text "done"] none false], true⟩
  refine Relation.ReflTransGen.head
    (StreamStep.produce (some (CallToolFrame.progress "1" 1 none none))
      _ [] []) ?_
  refine Relation.ReflTransGen.head
    (StreamStep.produce
      (some (CallToolFrame.result [WireContent.text "done"] none false))
      _ _ []) ?_
  refine Relation.ReflTransGen.head
    (StreamStep.produce none _ _ []) ?_
  show Relation.ReflTransGen StreamStep
    ⟨[], [some (CallToolFrame.progress "1" 1 none none),
          some (CallToolFrame.result [WireContent.text "done"] none false),
          none], [], false⟩ _
  refine Relation.ReflTransGen.head
    (StreamStep.consume_frame (CallToolFrame.progress "1" 1 none none)
      [] _ []) ?_
  refine Relation.ReflTransGen.head
    (StreamStep.consume_frame
      (CallToolFrame.result [WireContent.text "done"] none false)
      [] _ _) ?_
  show Relation.ReflTransGen StreamStep
    ⟨[], [none],
      [CallToolFrame.progress "1" 1 none none,
       CallToolFrame.result [WireContent.text "done"] none false], false⟩ _
  exact Relation.ReflTransGen.head
    (StreamStep.consume_null [] [] _) Relation.ReflTransGen.refl

theorem roundHalfEven_intCast (m : ℤ) : roundHalfEven (m : ℚ) = m := by
  unfold roundHalfEven
  simp

theorem fl_zero : fl 0 = 0 := by simp [fl]

theorem pyTrunc_intCast (n : ℤ) : pyTrunc (n : ℚ) = n := by
  unfold pyTrunc
  by_cases h : (0 : ℚ) ≤ (n : ℚ)
  · simp [h]
  · rw [if_neg h, ← Int.cast_neg, Int.floor_intCast]
    ring

theorem pyTrunc_zero : pyTrunc (0 : ℚ) = 0 := by
  simpa using pyTrunc_intCast 0

theorem roundHalfEven_zero : roundHalfEven (0 : ℚ) = 0 := by
  simpa using roundHalfEven_intCast 0

theorem fl_intCast (n : ℤ) (h : |n| < 2 ^ 53) : fl (n : ℚ) = n := by
  by_cases h0 : n = 0
  · subst h0; simpa using fl_zero
  have hqne : (n : ℚ) ≠ 0 := Int.cast_ne_zero.mpr h0
  have hpos : (0 : ℚ) < |(n : ℚ)| := abs_pos.mpr hqne
  have habs : |(n : ℚ)| = ((|n| : ℤ) : ℚ) := by push_cast; rfl
  have hub : |(n : ℚ)| < ((2 : ℕ) : ℚ) ^ (53 : ℤ) := by
    rw [habs]
    have h2 : ((2 : ℕ) : ℚ) ^ (53 : ℤ) = ((2 ^ 53 : ℤ) : ℚ) := by norm_num
    rw [h2]
    exact_mod_cast h
  have hlog : Int.log 2 |(n : ℚ)| < 53 :=
    (Int.lt_zpow_iff_log_lt (by norm_num) hpos).mp hub
  set e := Int.log 2 |(n : ℚ)| with he
  have hk : (52 : ℤ) - e = ((52 - e).toNat : ℤ) :=
    (Int.toNat_of_nonneg (by omega)).symm
  set k := (52 - e).toNat with hkdef
  have hscaled : |(n : ℚ)| * (2 : ℚ) ^ ((52 : ℤ) - e) =
      ((|n| * 2 ^ k : ℤ) : ℚ) := by
    rw [habs, hk, zpow_natCast]
    push_cast
    ring
  unfold fl
  rw [if_neg hqne, ← he, hscaled, roundHalfEven_intCast]
  have hback : ((|n| * 2 ^ k : ℤ) : ℚ) * (2 : ℚ) ^ (e - (52 : ℤ)) =
      ((|n| : ℤ) : ℚ) := by
    push_cast
    rw [mul_assoc]
    rw [show ((2 : ℚ) ^ k * (2 : ℚ) ^ (e - (52 : ℤ))) =
        (2 : ℚ) ^ ((k : ℤ) + (e - 52)) by
      rw [zpow_add₀ (by norm_num : (2 : ℚ) ≠ 0), zpow_natCast]]
    rw [show (k : ℤ) + (e - 52) = 0 by omega]
    simp
  rw [hback]
  by_cases hn : (0 : ℚ) < (n : ℚ)
  · rw [if_pos hn, mul_one]
    rw [show |n| = n from abs_of_pos (by exact_mod_cast hn)]
  · rw [if_neg hn, mul_neg_one]
    have hneg : n < 0 := by
      rcases lt_trichotomy n 0 with h1 | h1 | h1
      · exact h1
      · exact absurd h1 h0
      · exact absurd (by exact_mod_cast h1 : (0 : ℚ) < (n : ℚ)) hn
    rw [show |n| = -n from abs_of_neg hneg]
    push_cast
    ring

theorem ttl_from_timedelta_int (s : ℤ) (h : |s| < 2 ^ 53) :
    ttl_from_timedelta (s * 1000000) = (s, 0) := by
  have hdiv : ((s * 1000000 : ℤ) : ℚ) / 1000000 = (s : ℚ) := by
    push_cast
    field_simp
  have hfl : fl ((s : ℚ)) = (s : ℚ) := fl_intCast s h
  simp only [ttl_from_timedelta, hdiv, hfl, pyTrunc_intCast, sub_self,
    fl_zero, zero_mul, pyTrunc_zero]

theorem timedelta_from_ttl_int (s : ℤ) (h : |s| < 2 ^ 53) :
    timedelta_from_ttl s 0 = s * 1000000 := by
  have hfl : fl ((s : ℚ)) = (s : ℚ) := fl_intCast s h
  have h0 : fl ((0 : ℤ) : ℚ) = 0 := by simpa using fl_zero
  simp only [timedelta_from_ttl, Int.cast_zero, fl_zero, zero_div, add_zero,
    hfl, pyTrunc_intCast, sub_self, zero_mul, roundHalfEven_zero]

/-- Concrete binary64 rounding: `(17280000000000001 µs) / 10^6` seconds
rounds to exactly `17280000000.0` — the microsecond is below half an ulp at
this magnitude. -/
theorem fl_big : fl ((17280000000000001 : ℚ) / 1000000) = 17280000000 := by
  have hq : (0 : ℚ) < 17280000000000001 / 1000000 := by norm_num
  have habs : |((17280000000000001 : ℚ) / 1000000)| =
      (17280000000000001 : ℚ) / 1000000 := abs_of_pos hq
  have hlog : Int.log 2 ((17280000000000001 : ℚ) / 1000000) = 34 := by
    have h1 : ((2 : ℕ) : ℚ) ^ (34 : ℤ) ≤ 17280000000000001 / 1000000 := by
      norm_num
    have h2 : (17280000000000001 : ℚ) / 1000000 < ((2 : ℕ) : ℚ) ^ (35 : ℤ) := by
      norm_num
    have h3 := (Int.zpow_le_iff_le_log (by norm_num) hq).mp h1
    have h4 := (Int.lt_zpow_iff_log_lt (by norm_num) hq).mp h2
    omega
  have hfloor : ⌊(17280000000000001 : ℚ) / 1000000 * 262144⌋ =
      (4529848320000000 : ℤ) := Int.floor_eq_iff.mpr (by norm_num)
  have hrhe : roundHalfEven ((17280000000000001 : ℚ) / 1000000 * 262144) =
      4529848320000000 := by
    unfold roundHalfEven
    rw [hfloor, if_pos (by norm_num)]
  unfold fl
  rw [if_neg (by norm_num), habs, hlog]
  rw [show (52 : ℤ) - 34 = 18 from by norm_num]
  rw [show ((2 : ℚ) ^ (18 : ℤ)) = 262144 from by norm_num]
  rw [hrhe]
  rw [show (34 : ℤ) - 52 = -18 from by norm_num]
  rw [show ((2 : ℚ) ^ (-18 : ℤ)) = 1 / 262144 from by norm_num]
  rw [if_pos hq]
  norm_num

theorem ttl_from_timedelta_big :
    ttl_from_timedelta 17280000000000001 = (17280000000, 0) := by
  simp only [ttl_from_timedelta]
  rw [show ((17280000000000001 : ℤ) : ℚ) = (17280000000000001 : ℚ) from by
    norm_num]
  rw [fl_big]
  rw [show (17280000000 : ℚ) = ((17280000000 : ℤ) : ℚ) from by norm_num]
  rw [pyTrunc_intCast, fl_intCast _ (by norm_num), sub_self, fl_zero,
    zero_mul, fl_zero, pyTrunc_zero]

/-- C1 counterexample: the timedelta of 200000 days plus one microsecond
(17280000000000001 µs) loses its microsecond to binary64 rounding inside
`total_seconds()`: the TTL proto comes out as `(17280000000, 0)` and the
reverse conversion yields 17280000000000000 µs, not the original value —
the sub-second part is not preserved. -/
theorem ttl_roundtrip_counterexample :
    ttl_from_timedelta 17280000000000001 = (17280000000, 0) ∧
    timedelta_from_ttl 17280000000 0 = 17280000000000000 ∧
    (17280000000000000 : ℤ) ≠ 17280000000000001 := by
  refine ⟨ttl_from_timedelta_big, ?_, by decide⟩
  rw [timedelta_from_ttl_int 17280000000 (by norm_num)]
  norm_num

/-- C1 (amended): for every whole-second timedelta with `|seconds| < 2^53`
(exactly representable in binary64), `ttl_from_timedelta` produces exactly
`(seconds, 0)` and `timedelta_from_ttl` maps it back to the original
timedelta; exactness can fail once sub-second microseconds meet large
magnitudes (see the counterexample). -/
theorem ttl_roundtrip_whole_seconds (s : ℤ) (h : |s| < 2 ^ 53) :
    ttl_from_timedelta (s * 1000000) = (s, 0) ∧
    timedelta_from_ttl s 0 = s * 1000000 :=
  ⟨ttl_from_timedelta_int s h, timedelta_from_ttl_int s h⟩

/-- Witness for C1 (amended) at one hour (the server's list TTL). -/
theorem ttl_roundtrip_whole_seconds_witness :
    ttl_from_timedelta (3600 * 1000000) = (3600, 0) ∧
    timedelta_from_ttl 3600 0 = 3600 * 1000000 :=
  ttl_roundtrip_whole_seconds 3600 (by norm_num)
end Mcp
